import Mathlib

/-!
Verification of the session/authentication core of the Sokoverse repository.

The development shallowly embeds `src/lib/server/auth/session.ts` and the
OAuth login-initiation route handler.  The database is modelled as explicit
lists of session and user rows; clock readings (`Date.now()`) are passed as an
explicit `now : Int` (milliseconds since the epoch, matching JavaScript
timestamp arithmetic on integers).  The token hash used by the code,
`encodeHexLowerCase(sha256(new TextEncoder().encode(token)))`, is embedded
concretely: UTF-8 encoding, SHA-256 and lowercase hex encoding are implemented
below over byte lists (bytes and 32-bit words as `Nat` with explicit
`% 2 ^ 32`).
-/

/-! ## SHA-256, UTF-8 and hex encoding -/

/-- The constant `2 ^ 32`, the modulus for 32-bit word arithmetic. -/
def w32mod : Nat := 4294967296

/-- Right rotation of a 32-bit word. -/
def rotr32 (n x : Nat) : Nat := ((x >>> n) ||| (x <<< (32 - n))) % w32mod

/-- SHA-256 message-schedule function `σ₀`. -/
def smallSigma0 (x : Nat) : Nat := (rotr32 7 x) ^^^ (rotr32 18 x) ^^^ (x >>> 3)

/-- SHA-256 message-schedule function `σ₁`. -/
def smallSigma1 (x : Nat) : Nat := (rotr32 17 x) ^^^ (rotr32 19 x) ^^^ (x >>> 10)

/-- SHA-256 compression function `Σ₀`. -/
def bigSigma0 (x : Nat) : Nat := (rotr32 2 x) ^^^ (rotr32 13 x) ^^^ (rotr32 22 x)

/-- SHA-256 compression function `Σ₁`. -/
def bigSigma1 (x : Nat) : Nat := (rotr32 6 x) ^^^ (rotr32 11 x) ^^^ (rotr32 25 x)

/-- SHA-256 choice function `Ch(x, y, z)`; `x ^^^ 4294967295` is 32-bit complement. -/
def chooseBits (x y z : Nat) : Nat := (x &&& y) ^^^ ((x ^^^ 4294967295) &&& z)

/-- SHA-256 majority function `Maj(x, y, z)`. -/
def majBits (x y z : Nat) : Nat := (x &&& y) ^^^ (x &&& z) ^^^ (y &&& z)

/-- The 64 SHA-256 round constants. -/
def sha256K : List Nat :=
  [1116352408, 1899447441, 3049323471, 3921009573, 961987163,
   1508970993, 2453635748, 2870763221, 3624381080, 310598401,
   607225278, 1426881987, 1925078388, 2162078206, 2614888103,
   3248222580, 3835390401, 4022224774, 264347078, 604807628,
   770255983, 1249150122, 1555081692, 1996064986, 2554220882,
   2821834349, 2952996808, 3210313671, 3336571891, 3584528711,
   113926993, 338241895, 666307205, 773529912, 1294757372,
   1396182291, 1695183700, 1986661051, 2177026350, 2456956037,
   2730485921, 2820302411, 3259730800, 3345764771, 3516065817,
   3600352804, 4094571909, 275423344, 430227734, 506948616,
   659060556, 883997877, 958139571, 1322822218, 1537002063,
   1747873779, 1955562222, 2024104815, 2227730452, 2361852424,
   2428436474, 2756734187, 3204031479, 3329325298]

/-- The SHA-256 initial hash state. -/
def sha256InitH : List Nat :=
  [1779033703, 3144134277, 1013904242, 2773480762,
   1359893119, 2600822924, 528734635, 1541459225]

/-- Extend a 16-word block to the 64-word SHA-256 message schedule. -/
def extendSchedule (w : List Nat) : List Nat :=
  (List.range 48).foldl (fun acc _ =>
    let n := acc.length
    let wA := acc.getD (n - 16) 0
    let wB := acc.getD (n - 15) 0
    let wC := acc.getD (n - 7) 0
    let wD := acc.getD (n - 2) 0
    acc ++ [(wA + smallSigma0 wB + wC + smallSigma1 wD) % w32mod]) w

/-- One SHA-256 compression round on the eight-word working state. -/
def sha256Round (hs : List Nat) (k : Nat) (w : Nat) : List Nat :=
  match hs with
  | [a, b, c, d, e, f, g, h] =>
    let t1 := (h + bigSigma1 e + chooseBits e f g + k + w) % w32mod
    let t2 := (bigSigma0 a + majBits a b c) % w32mod
    [(t1 + t2) % w32mod, a, b, c, (d + t1) % w32mod, e, f, g]
  | _ => hs

/-- Compress one 16-word block into the running hash state. -/
def compressBlock (hs : List Nat) (block : List Nat) : List Nat :=
  let ws := extendSchedule block
  let final := (sha256K.zip ws).foldl (fun st p => sha256Round st p.1 p.2) hs
  (hs.zip final).map (fun p => (p.1 + p.2) % w32mod)

/-- Group bytes, four at a time big-endian, into 32-bit words. -/
def bytesToWords : List Nat → List Nat
  | a :: b :: c :: d :: rest => (a * 16777216 + b * 65536 + c * 256 + d) :: bytesToWords rest
  | _ => []

/-- Split a word list into 16-word blocks. -/
def chunk16 : List Nat → List (List Nat)
  | w0 :: w1 :: w2 :: w3 :: w4 :: w5 :: w6 :: w7 :: w8 :: w9 :: w10 :: w11 :: w12 :: w13 :: w14 :: w15 :: rest =>
    [w0, w1, w2, w3, w4, w5, w6, w7, w8, w9, w10, w11, w12, w13, w14, w15] :: chunk16 rest
  | _ => []

/-- The 8-byte big-endian encoding of the message bit length. -/
def lengthBytes (n : Nat) : List Nat :=
  [(n >>> 56) % 256, (n >>> 48) % 256, (n >>> 40) % 256, (n >>> 32) % 256,
   (n >>> 24) % 256, (n >>> 16) % 256, (n >>> 8) % 256, n % 256]

/-- SHA-256 padding: append `0x80`, zero bytes to 56 mod 64, then the bit length. -/
def padBytes (msg : List Nat) : List Nat :=
  let l := msg.length
  let zeros := (119 - l % 64) % 64
  msg ++ [128] ++ List.replicate zeros 0 ++ lengthBytes (8 * l)

/-- Big-endian bytes of a 32-bit word. -/
def wordToBytes (w : Nat) : List Nat :=
  [(w >>> 24) % 256, (w >>> 16) % 256, (w >>> 8) % 256, w % 256]

/-- SHA-256 of a byte list, as a 32-byte list.  Embeds `sha256` from
`@oslojs/crypto/sha2` as used by the source. -/
def sha256 (msg : List Nat) : List Nat :=
  (((chunk16 (bytesToWords (padBytes msg))).foldl compressBlock sha256InitH).map wordToBytes).flatten

/-- UTF-8 encoding of a single character. -/
def utf8EncodeChar (c : Char) : List Nat :=
  let n := c.toNat
  if n < 128 then [n]
  else if n < 2048 then [192 + n / 64, 128 + n % 64]
  else if n < 65536 then [224 + n / 4096, 128 + (n / 64) % 64, 128 + n % 64]
  else [240 + n / 262144, 128 + (n / 4096) % 64, 128 + (n / 64) % 64, 128 + n % 64]

/-- UTF-8 encoding of a string; embeds `new TextEncoder().encode(token)`. -/
def utf8Encode (s : String) : List Nat :=
  (s.data.map utf8EncodeChar).flatten

/-- Lowercase hexadecimal digit for a value below 16. -/
def hexDigitChar (n : Nat) : Char :=
  if n < 10 then Char.ofNat (48 + n) else Char.ofNat (87 + n)

/-- Lowercase hex encoding of a byte list; embeds `encodeHexLowerCase` from
`@oslojs/encoding`. -/
def encodeHexLowerCase (bs : List Nat) : String :=
  ⟨(bs.map (fun b => [hexDigitChar (b / 16), hexDigitChar (b % 16)])).flatten⟩

/-- The session identifier derived from a raw token:
`encodeHexLowerCase(sha256(new TextEncoder().encode(token)))`, computed
identically in `createSession` and `validateSessionToken`. -/
def sessionIdOf (token : String) : String :=
  encodeHexLowerCase (sha256 (utf8Encode token))

/-- FIPS 180-2 test vector: the implementation of the token hash agrees with
SHA-256 on `"abc"`. -/
theorem sessionIdOf_abc_vector :
    sessionIdOf "abc" = "ba7816bf8f01cfea414140de5dae2223b00361a396177a9cb410ff61f20015ad" := by
  decide

/-! ## Data model

`Session` mirrors the session table row (`id` is the token hash, `userId`
the owning user, `expiresAt` a millisecond timestamp).  `User` is the external
user row: the schema is owned by the persistence layer; modelled from the
spec: an identifier plus opaque profile fields.  `DB` is the relational store
seen through the ORM: the session table and the user table. -/

structure User where
  id : Nat
  profile : String
deriving DecidableEq

structure Session where
  id : String
  userId : Nat
  expiresAt : Int
deriving DecidableEq

structure DB where
  sessions : List Session
  users : List User
deriving DecidableEq

/-- Result type `{ session, user } | { session: null, user: null }` from the source,
with `none` as the `null` case. -/
abbrev SessionValidationResult := Option (User × Session)

/-- The quantity `1000 * 60 * 60 * 24 * 30` milliseconds: the 30-day session lifetime. -/
def day30ms : Int := 1000 * 60 * 60 * 24 * 30

/-- The quantity `1000 * 60 * 60 * 24 * 15` milliseconds: the 15-day renewal window. -/
def day15ms : Int := 1000 * 60 * 60 * 24 * 15

/-- One day in milliseconds (used to state the worked example). -/
def day1ms : Int := 1000 * 60 * 60 * 24

/-- Database well-formedness: primary-key uniqueness of session ids and user
ids, as enforced by the schema. -/
def DB.wf (db : DB) : Prop :=
  db.sessions.Pairwise (fun a b => a.id ≠ b.id) ∧
  db.users.Pairwise (fun a b => a.id ≠ b.id)

/-! ## Session manager operations -/

/-- Embeds `createSession(token, userId)`: hash the token into the session id, set
expiry 30 days from now, insert the row, return the created session. -/
def createSession (token : String) (userId : Nat) (now : Int) (db : DB) :
    Session × DB :=
  let session : Session :=
    { id := sessionIdOf token, userId := userId, expiresAt := now + day30ms }
  (session, { db with sessions := db.sessions ++ [session] })

/-- The rows of
`select({user, session}).from(sessionTable).innerJoin(userTable, eq(sessionTable.userId, userTable.id)).where(eq(sessionTable.id, sessionId))`:
every session row whose id matches, paired with every user row whose id equals
the session's `userId`. -/
def joinRows (db : DB) (sessionId : String) : List (User × Session) :=
  ((db.sessions.filter (fun s => s.id == sessionId)).map
    (fun s => (db.users.filter (fun u => u.id == s.userId)).map (fun u => (u, s)))).flatten

/-- Embeds `delete(sessionTable).where(eq(sessionTable.id, sessionId))`. -/
def deleteSessionById (db : DB) (sessionId : String) : DB :=
  { db with sessions := db.sessions.filter (fun s => !(s.id == sessionId)) }

/-- Embeds `update(sessionTable).set({expiresAt}).where(eq(sessionTable.id, sessionId))`. -/
def updateSessionExpiry (db : DB) (sessionId : String) (expiresAt : Int) : DB :=
  { db with sessions := (db.sessions.map
      (fun s => if s.id == sessionId then { s with expiresAt := expiresAt } else s)) }

/-- Embeds `validateSessionToken(token)`: hash the token, take the first row of the
joined lookup (`result[0]`); absent ⇒ no session; expired (`now ≥ expiresAt`)
⇒ delete the row and no session; within 15 days of expiry ⇒ extend the expiry
to `now + 30 days`, persist it, and return the updated session; otherwise
return the session unchanged.  Returns the result together with the
post-state of the store. -/
def validateSessionToken (token : String) (now : Int) (db : DB) :
    SessionValidationResult × DB :=
  let sessionId := sessionIdOf token
  match (joinRows db sessionId).head? with
  | none => (none, db)
  | some (user, session) =>
    if session.expiresAt ≤ now then
      (none, deleteSessionById db session.id)
    else if session.expiresAt - day15ms ≤ now then
      (some (user, { session with expiresAt := now + day30ms }),
       updateSessionExpiry db session.id (now + day30ms))
    else
      (some (user, session), db)

/-- Embeds `invalidateSession(sessionId)`: unconditional delete by session id. -/
def invalidateSession (sessionId : String) (db : DB) : DB :=
  deleteSessionById db sessionId

/-- Embeds `invalidateAllSessions(userId)`: unconditional delete by owning user id. -/
def invalidateAllSessions (userId : Nat) (db : DB) : DB :=
  { db with sessions := db.sessions.filter (fun s => !(s.userId == userId)) }

/-- One session-manager operation, for stating invariants over operation
sequences. -/
inductive SessionOp where
  | create (token : String) (userId : Nat) (now : Int)
  | validate (token : String) (now : Int)
  | invalidate (sessionId : String)
  | invalidateAll (userId : Nat)

/-- The store effect of one session-manager operation. -/
def applySessionOp (db : DB) : SessionOp → DB
  | .create token userId now => (createSession token userId now db).2
  | .validate token now => (validateSessionToken token now db).2
  | .invalidate sessionId => invalidateSession sessionId db
  | .invalidateAll userId => invalidateAllSessions userId db

/-- Run a sequence of session-manager operations. -/
def runSessionOps (db : DB) (ops : List SessionOp) : DB :=
  ops.foldl applySessionOp db

/-- Every stored session id is the hash of some token: no raw token is ever
persisted as an identifier. -/
def storedIdsHashed (db : DB) : Prop :=
  ∀ s ∈ db.sessions, ∃ t, s.id = sessionIdOf t

/-! ## Cached current-session lookup -/

/-- The `cacheLife({stale, revalidate, expire})` directive issued by
`getCurrentSessionCached`. -/
structure CacheLife where
  stale : Int
  revalidate : Int
  expire : Int
deriving DecidableEq

/-- The cache directives a single cached computation issues: an optional
`cacheTag` and an optional explicit `cacheLife` (absent means the framework
default lifetime applies and no tag is attached). -/
structure CacheDirectives where
  tag : Option String
  life : Option CacheLife
deriving DecidableEq

/-- Embeds `getCurrentSessionCached(token)`: the body of the `"use cache"` function.
Null token ⇒ no session, no tag, default lifetime.  Failed validation ⇒ no
session, no tag, default lifetime.  Positive validation ⇒ tag
`session:<id>` and lifetime `stale 0`, `revalidate = expire = remaining`
where `remaining = max(0, floor((expiresAt - now) / 1000))` seconds. -/
def getCurrentSessionCached (token : Option String) (now : Int) (db : DB) :
    (SessionValidationResult × DB) × CacheDirectives :=
  match token with
  | none => ((none, db), { tag := none, life := none })
  | some t =>
    let r := validateSessionToken t now db
    match r.1 with
    | none => ((none, r.2), { tag := none, life := none })
    | some (user, session) =>
      let remainingTime := max 0 ((session.expiresAt - now).fdiv 1000)
      ((some (user, session), r.2),
       { tag := some (String.append "session:" session.id),
         life := some { stale := 0, revalidate := remainingTime, expire := remainingTime } })

/-- Embeds `getCurrentSession()`: read the `session` cookie (`?.value ?? null`) and
delegate to the cached validator. -/
def getCurrentSession (cookieStore : List (String × String)) (now : Int) (db : DB) :
    (SessionValidationResult × DB) × CacheDirectives :=
  getCurrentSessionCached (cookieStore.lookup "session") now db

/-! ## OAuth login initiation -/

/-- The provider authorization URL as the handler assembles it.  Modelled from
the spec: `arctic`'s `google.createAuthorizationURL` is an external
collaborator that "produces an authorization URL from state+verifier"; the
structure records exactly the state, PKCE code verifier, scope list and extra
query parameters the handler supplies to it. -/
structure AuthorizationURL where
  state : String
  codeVerifier : String
  scopes : List String
  params : List (String × String)
deriving DecidableEq

/-- Modelled from the spec: `google.createAuthorizationURL(state, codeVerifier, scopes)`. -/
def createAuthorizationURL (state codeVerifier : String) (scopes : List String) :
    AuthorizationURL :=
  { state := state, codeVerifier := codeVerifier, scopes := scopes, params := [] }

/-- Embeds `url.searchParams.set(key, value)`. -/
def setSearchParam (u : AuthorizationURL) (key value : String) : AuthorizationURL :=
  { u with params := u.params ++ [(key, value)] }

/-- One `cookieStore.set(name, value, options)` call. -/
structure SetCookie where
  name : String
  value : String
  path : String
  httpOnly : Bool
  secure : Bool
  maxAge : Int
  sameSite : String
deriving DecidableEq

/-- The `Response` the login-initiation route returns: status, `Location`
header (as the structured authorization URL) and the cookies set on the way. -/
structure OAuthRedirectResponse where
  status : Nat
  location : AuthorizationURL
  setCookies : List SetCookie
deriving DecidableEq

/-- The `GET` route handler of the OAuth login-initiation endpoint.  The
random `state` and PKCE `codeVerifier` produced by `generateState()` /
`generateCodeVerifier()` are inputs; `nodeEnv` is `process.env.NODE_ENV`. -/
def oauthLoginGET (state codeVerifier : String) (nodeEnv : String) :
    OAuthRedirectResponse :=
  let url := setSearchParam
    (createAuthorizationURL state codeVerifier ["openid", "profile"])
    "prompt" "select_account"
  { status := 302
  , location := url
  , setCookies :=
      [ { name := "google_oauth_state", value := state, path := "/",
          httpOnly := true, secure := nodeEnv == "production",
          maxAge := 60 * 10, sameSite := "lax" }
      , { name := "google_code_verifier", value := codeVerifier, path := "/",
          httpOnly := true, secure := nodeEnv == "production",
          maxAge := 60 * 10, sameSite := "lax" } ] }

/-! ## Helper lemmas -/

theorem day30ms_eq : day30ms = 2592000000 := rfl

theorem day15ms_eq : day15ms = 1296000000 := rfl

theorem day1ms_eq : day1ms = 86400000 := rfl

theorem head?_filter_eq_find? {α : Type _} (p : α → Bool) (l : List α) :
    (l.filter p).head? = l.find? p := by
  induction l with
  | nil => rfl
  | cons a t ih =>
    by_cases h : p a = true
    · simp [List.filter_cons, List.find?_cons, h]
    · simp [List.filter_cons, List.find?_cons, h, ih]

theorem head?_mem {α : Type _} {l : List α} {a : α} (h : l.head? = some a) : a ∈ l := by
  cases l with
  | nil => simp at h
  | cons b t =>
    simp only [List.head?_cons, Option.some.injEq] at h
    simp [h]

theorem mem_joinRows {db : DB} {sid : String} {u : User} {s : Session}
    (h : (u, s) ∈ joinRows db sid) :
    s ∈ db.sessions ∧ s.id = sid ∧ u ∈ db.users ∧ u.id = s.userId := by
  simp only [joinRows, List.mem_flatten, List.mem_map, List.mem_filter] at h
  obtain ⟨l, ⟨s', ⟨hs'mem, hs'id⟩, rfl⟩, hmem⟩ := h
  simp only [List.mem_map, List.mem_filter] at hmem
  obtain ⟨u', ⟨⟨hu'mem, hu'id⟩, heq⟩⟩ := hmem
  cases heq
  exact ⟨hs'mem, by simpa using hs'id, hu'mem, by simpa using hu'id⟩

theorem filter_key_eq_singleton {α β : Type _} [BEq β] [LawfulBEq β] (key : α → β)
    {l : List α} {a : α} {k : β}
    (hp : l.Pairwise (fun x y => key x ≠ key y)) (hmem : a ∈ l) (hk : key a = k) :
    l.filter (fun x => key x == k) = [a] := by
  induction l with
  | nil => cases hmem
  | cons b t ih =>
    rcases List.pairwise_cons.mp hp with ⟨hhead, htail⟩
    rcases List.mem_cons.mp hmem with rfl | hmem'
    · have htnil : t.filter (fun x => key x == k) = [] := by
        rw [List.filter_eq_nil_iff]
        intro x hx
        simp only [beq_iff_eq]
        intro hxe
        exact hhead x hx (by rw [hk, hxe])
      simp [List.filter_cons, hk, htnil]
    · have hb : ¬(key b == k) = true := by
        simp only [beq_iff_eq]
        intro hbe
        exact hhead a hmem' (by rw [hbe, hk])
      simp only [List.filter_cons, hb, if_false]
      exact ih htail hmem'

theorem validate_of_head_some {token : String} {now : Int} {db : DB} {u : User} {s : Session}
    (hrow : (joinRows db (sessionIdOf token)).head? = some (u, s)) :
    validateSessionToken token now db =
      if s.expiresAt ≤ now then (none, deleteSessionById db s.id)
      else if s.expiresAt - day15ms ≤ now then
        (some (u, { s with expiresAt := now + day30ms }),
         updateSessionExpiry db s.id (now + day30ms))
      else (some (u, s), db) := by
  simp only [validateSessionToken]
  rw [hrow]

theorem validate_of_head_none {token : String} {now : Int} {db : DB}
    (hrow : (joinRows db (sessionIdOf token)).head? = none) :
    validateSessionToken token now db = (none, db) := by
  simp only [validateSessionToken]
  rw [hrow]

theorem joinRows_deleteSessionById (db : DB) (sid : String) :
    joinRows (deleteSessionById db sid) sid = [] := by
  have h1 : (db.sessions.filter (fun s => !(s.id == sid))).filter (fun s => s.id == sid) = [] := by
    rw [List.filter_eq_nil_iff]
    intro a ha
    rcases List.mem_filter.mp ha with ⟨_, hne⟩
    simpa using hne
  simp [joinRows, deleteSessionById, h1]

theorem filter_update_eq (l : List Session) (sid : String) (e : Int) :
    (l.map (fun s => if s.id == sid then { s with expiresAt := e } else s)).filter
        (fun s => s.id == sid) =
      (l.filter (fun s => s.id == sid)).map (fun s => { s with expiresAt := e }) := by
  induction l with
  | nil => rfl
  | cons a t ih =>
    by_cases h : a.id = sid
    · simp [List.filter_cons, h]
      simpa using ih
    · simp [List.filter_cons, h]
      simpa using ih

theorem joinRows_updateSessionExpiry (db : DB) (sid : String) (e : Int) :
    joinRows (updateSessionExpiry db sid e) sid =
      (joinRows db sid).map (fun p => (p.1, { p.2 with expiresAt := e })) := by
  simp only [joinRows, updateSessionExpiry, filter_update_eq, List.map_map]
  rw [List.map_flatten]
  simp only [List.map_map]
  congr 1
  refine List.map_congr_left (fun s hs => ?_)
  simp [Function.comp, List.map_map]

theorem validate_some_lifetime {token : String} {now : Int} {db : DB} {u : User} {s : Session}
    (h : (validateSessionToken token now db).1 = some (u, s)) :
    now + day15ms < s.expiresAt := by
  cases hrow : (joinRows db (sessionIdOf token)).head? with
  | none =>
    rw [validate_of_head_none hrow] at h
    simp at h
  | some p =>
    obtain ⟨u0, s0⟩ := p
    rw [validate_of_head_some hrow] at h
    by_cases h1 : s0.expiresAt ≤ now
    · simp [h1] at h
    · by_cases h2 : s0.expiresAt - day15ms ≤ now
      · simp only [h1, h2, if_true, if_false] at h
        simp only [Option.some.injEq, Prod.mk.injEq] at h
        obtain ⟨_, hs⟩ := h
        rw [← hs]
        simp only [day15ms_eq, day30ms_eq]
        omega
      · simp only [h1, h2, if_true, if_false] at h
        simp only [Option.some.injEq, Prod.mk.injEq] at h
        obtain ⟨_, hs⟩ := h
        rw [← hs]
        rw [day15ms_eq] at h2 ⊢
        omega

theorem joinRows_append_fresh (db : DB) (newS : Session) (sid : String)
    (hf : ∀ s ∈ db.sessions, ¬ s.id = sid) (hid : newS.id = sid) :
    joinRows { db with sessions := db.sessions ++ [newS] } sid =
      (db.users.filter (fun u => u.id == newS.userId)).map (fun u => (u, newS)) := by
  have h1 : db.sessions.filter (fun s => s.id == sid) = [] := by
    rw [List.filter_eq_nil_iff]
    intro a ha
    simpa using hf a ha
  simp [joinRows, List.filter_append, h1, List.filter_cons, hid]

theorem head_joinRows_after_create (token : String) (userId : Nat) (now : Int)
    (db : DB) (u : User)
    (hu : db.users.find? (fun x => x.id == userId) = some u)
    (hfresh : ∀ s ∈ db.sessions, ¬ s.id = sessionIdOf token) :
    (joinRows (createSession token userId now db).2 (sessionIdOf token)).head? =
      some (u, (createSession token userId now db).1) := by
  have hjoin : joinRows (createSession token userId now db).2 (sessionIdOf token) =
      (db.users.filter (fun x => x.id == userId)).map
        (fun x => (x, (createSession token userId now db).1)) :=
    joinRows_append_fresh db (createSession token userId now db).1 (sessionIdOf token)
      hfresh rfl
  rw [hjoin, List.head?_map, head?_filter_eq_find?, hu]
  rfl

/-! ## Claim theorems -/

/-- Sample user row and empty store used by the concrete witnesses. -/
def userA : User := { id := 1, profile := "p" }

/-- A store holding only `userA` and no sessions. -/
def dbA : DB := { sessions := [], users := [userA] }

/-- C1: for every token and every existing user, `validateSessionToken token`
immediately after `createSession token userId` (same clock reading, insert
succeeding, hence no stored session already carries this token's hash) returns
exactly the created session together with the user having that `userId`, and
leaves the store as `createSession` left it. -/
theorem create_then_validate_returns_session_and_user
    (token : String) (userId : Nat) (now : Int) (db : DB) (u : User)
    (hu : db.users.find? (fun x => x.id == userId) = some u)
    (hfresh : ∀ s ∈ db.sessions, ¬ s.id = sessionIdOf token) :
    validateSessionToken token now (createSession token userId now db).2 =
      (some (u, (createSession token userId now db).1),
       (createSession token userId now db).2) := by
  have hhead := head_joinRows_after_create token userId now db u hu hfresh
  rw [validate_of_head_some hhead]
  have he : ((createSession token userId now db).1).expiresAt = now + day30ms := rfl
  have h1 : ¬ (((createSession token userId now db).1).expiresAt ≤ now) := by
    rw [he, day30ms_eq]; omega
  have h2 : ¬ (((createSession token userId now db).1).expiresAt - day15ms ≤ now) := by
    rw [he, day30ms_eq, day15ms_eq]; omega
  rw [if_neg h1, if_neg h2]

/-- Witness for C1 at `token = "t"`, `userId = 1`, `now = 0` on a store
holding only that user. -/
theorem create_then_validate_returns_session_and_user_witness :
    dbA.users.find? (fun x => x.id == 1) = some userA ∧
    validateSessionToken "t" 0 (createSession "t" 1 0 dbA).2 =
      (some (userA, (createSession "t" 1 0 dbA).1), (createSession "t" 1 0 dbA).2) :=
  ⟨rfl, create_then_validate_returns_session_and_user "t" 1 0 dbA userA rfl
    (by intro s hs; simp [dbA] at hs)⟩

theorem validate_renew_branch {token : String} {now : Int} {db : DB} {u : User} {s : Session}
    (hrow : (joinRows db (sessionIdOf token)).head? = some (u, s))
    (h1 : now < s.expiresAt) (h2 : s.expiresAt - day15ms ≤ now) :
    validateSessionToken token now db =
      (some (u, { s with expiresAt := now + day30ms }),
       updateSessionExpiry db s.id (now + day30ms)) := by
  rw [validate_of_head_some hrow, if_neg (not_le.mpr h1), if_pos h2]

theorem validate_fresh_branch {token : String} {now : Int} {db : DB} {u : User} {s : Session}
    (hrow : (joinRows db (sessionIdOf token)).head? = some (u, s))
    (h : now < s.expiresAt - day15ms) :
    validateSessionToken token now db = (some (u, s), db) := by
  have h1 : ¬ (s.expiresAt ≤ now) := by rw [day15ms_eq] at h; omega
  have h2 : ¬ (s.expiresAt - day15ms ≤ now) := not_le.mpr h
  rw [validate_of_head_some hrow, if_neg h1, if_neg h2]

theorem validate_expired_branch {token : String} {now : Int} {db : DB} {u : User} {s : Session}
    (hrow : (joinRows db (sessionIdOf token)).head? = some (u, s))
    (h : s.expiresAt ≤ now) :
    validateSessionToken token now db = (none, deleteSessionById db s.id) := by
  rw [validate_of_head_some hrow, if_pos h]

theorem renewal_sequence_example (t0 : Int) (tk : String) (uid : Nat) (pf : String) :
    (validateSessionToken tk (t0 + 20 * day1ms)
        (createSession tk uid t0 { sessions := [], users := [{ id := uid, profile := pf }] }).2).1 =
      some ({ id := uid, profile := pf },
        { (createSession tk uid t0 { sessions := [], users := [{ id := uid, profile := pf }] }).1
            with expiresAt := t0 + 50 * day1ms }) ∧
    (validateSessionToken tk (t0 + 51 * day1ms)
        (validateSessionToken tk (t0 + 20 * day1ms)
          (createSession tk uid t0 { sessions := [], users := [{ id := uid, profile := pf }] }).2).2).1 =
      none := by
  have h0 : ({ sessions := [], users := [{ id := uid, profile := pf }] } : DB).users.find?
      (fun x => x.id == uid) = some { id := uid, profile := pf } := by
    simp [List.find?_cons]
  have hhead := head_joinRows_after_create tk uid t0
    { sessions := [], users := [{ id := uid, profile := pf }] } { id := uid, profile := pf }
    h0 (by intro s hs; simp at hs)
  have he : ((createSession tk uid t0
      { sessions := [], users := [{ id := uid, profile := pf }] }).1).expiresAt =
      t0 + day30ms := rfl
  have h1 : t0 + 20 * day1ms <
      ((createSession tk uid t0
        { sessions := [], users := [{ id := uid, profile := pf }] }).1).expiresAt := by
    rw [he, day1ms_eq, day30ms_eq]; omega
  have h2 : ((createSession tk uid t0
      { sessions := [], users := [{ id := uid, profile := pf }] }).1).expiresAt - day15ms ≤
      t0 + 20 * day1ms := by
    rw [he, day1ms_eq, day30ms_eq, day15ms_eq]; omega
  have hval1 := validate_renew_branch hhead h1 h2
  have hfifty : t0 + 20 * day1ms + day30ms = t0 + 50 * day1ms := by
    rw [day1ms_eq, day30ms_eq]; omega
  constructor
  · rw [hval1, hfifty]
  · rw [hval1]
    have hid : ((createSession tk uid t0
        { sessions := [], users := [{ id := uid, profile := pf }] }).1).id =
        sessionIdOf tk := rfl
    have hhead2 : (joinRows (updateSessionExpiry
        (createSession tk uid t0 { sessions := [], users := [{ id := uid, profile := pf }] }).2
        ((createSession tk uid t0 { sessions := [], users := [{ id := uid, profile := pf }] }).1).id
        (t0 + 20 * day1ms + day30ms)) (sessionIdOf tk)).head? =
        some ({ id := uid, profile := pf },
          { (createSession tk uid t0 { sessions := [], users := [{ id := uid, profile := pf }] }).1
              with expiresAt := t0 + 20 * day1ms + day30ms }) := by
      rw [hid, joinRows_updateSessionExpiry, List.head?_map, hhead]
      rfl
    have hexp : ({ (createSession tk uid t0
        { sessions := [], users := [{ id := uid, profile := pf }] }).1
          with expiresAt := t0 + 20 * day1ms + day30ms } : Session).expiresAt ≤
        t0 + 51 * day1ms := by
      simp only [day1ms_eq, day30ms_eq]
      omega
    rw [validate_expired_branch hhead2 hexp]

/-- C2: validating within 15 days of expiry (but before it) returns the
session with expiry extended to exactly `now + 30 days` and persists that
update; validating earlier than the window returns the session unchanged with
no store update.  In particular a session created at `t0` (expiry
`t0 + 30 days`) validated at `t0 + 20 days` comes back with expiry
`t0 + 50 days`, and validating again at `t0 + 51 days` yields no session. -/
theorem validateSessionToken_sliding_renewal :
    (∀ (token : String) (now : Int) (db : DB) (u : User) (s : Session),
      (joinRows db (sessionIdOf token)).head? = some (u, s) →
      now < s.expiresAt → s.expiresAt - day15ms ≤ now →
      validateSessionToken token now db =
        (some (u, { s with expiresAt := now + day30ms }),
         updateSessionExpiry db s.id (now + day30ms))) ∧
    (∀ (token : String) (now : Int) (db : DB) (u : User) (s : Session),
      (joinRows db (sessionIdOf token)).head? = some (u, s) →
      now < s.expiresAt - day15ms →
      validateSessionToken token now db = (some (u, s), db)) ∧
    (∀ (t0 : Int) (tk : String) (uid : Nat) (pf : String),
      (validateSessionToken tk (t0 + 20 * day1ms)
          (createSession tk uid t0 { sessions := [], users := [{ id := uid, profile := pf }] }).2).1 =
        some ({ id := uid, profile := pf },
          { (createSession tk uid t0 { sessions := [], users := [{ id := uid, profile := pf }] }).1
              with expiresAt := t0 + 50 * day1ms }) ∧
      (validateSessionToken tk (t0 + 51 * day1ms)
          (validateSessionToken tk (t0 + 20 * day1ms)
            (createSession tk uid t0 { sessions := [], users := [{ id := uid, profile := pf }] }).2).2).1 =
        none) :=
  ⟨fun _ _ _ _ _ h h1 h2 => validate_renew_branch h h1 h2,
   fun _ _ _ _ _ h h1 => validate_fresh_branch h h1,
   renewal_sequence_example⟩

/-- Witness for C2: the renewal clause applied at `token = "t"`, user 1,
session created at 0, validated at day 20. -/
theorem validateSessionToken_sliding_renewal_witness :
    validateSessionToken "t" (20 * day1ms) (createSession "t" 1 0 dbA).2 =
      (some (userA,
        { (createSession "t" 1 0 dbA).1 with expiresAt := 20 * day1ms + day30ms }),
       updateSessionExpiry (createSession "t" 1 0 dbA).2
         ((createSession "t" 1 0 dbA).1).id (20 * day1ms + day30ms)) :=
  validateSessionToken_sliding_renewal.1 "t" (20 * day1ms)
    (createSession "t" 1 0 dbA).2 userA (createSession "t" 1 0 dbA).1
    (head_joinRows_after_create "t" 1 0 dbA userA rfl (by intro s hs; simp [dbA] at hs))
    (by show (20 * day1ms : Int) < 0 + day30ms
        rw [day1ms_eq, day30ms_eq]; omega)
    (by show (0 : Int) + day30ms - day15ms ≤ 20 * day1ms
        rw [day1ms_eq, day30ms_eq, day15ms_eq]; omega)

/-- C3: validating at or after the stored session's expiry returns no session
and deletes the session row from storage; the expired case is an ordinary
return (the embedding is a total function), not an error. -/
theorem validate_expired_deletes_and_returns_none
    (token : String) (now : Int) (db : DB) (u : User) (s : Session)
    (hrow : (joinRows db (sessionIdOf token)).head? = some (u, s))
    (hexp : s.expiresAt ≤ now) :
    validateSessionToken token now db = (none, deleteSessionById db s.id) ∧
    ∀ s' ∈ (validateSessionToken token now db).2.sessions, ¬ s'.id = s.id := by
  have h := validate_expired_branch hrow hexp
  refine ⟨h, ?_⟩
  rw [h]
  intro s' hs'
  simp only [deleteSessionById] at hs'
  rcases List.mem_filter.mp hs' with ⟨_, hne⟩
  simpa using hne

/-- Witness for C3: session created at 0 and validated exactly at its expiry
timestamp is gone. -/
theorem validate_expired_deletes_and_returns_none_witness :
    validateSessionToken "t" day30ms (createSession "t" 1 0 dbA).2 =
      (none, deleteSessionById (createSession "t" 1 0 dbA).2
        ((createSession "t" 1 0 dbA).1).id) ∧
    ∀ s' ∈ (validateSessionToken "t" day30ms (createSession "t" 1 0 dbA).2).2.sessions,
      ¬ s'.id = ((createSession "t" 1 0 dbA).1).id :=
  validate_expired_deletes_and_returns_none "t" day30ms (createSession "t" 1 0 dbA).2
    userA (createSession "t" 1 0 dbA).1
    (head_joinRows_after_create "t" 1 0 dbA userA rfl (by intro s hs; simp [dbA] at hs))
    (by show (0 : Int) + day30ms ≤ day30ms; omega)

theorem validate_sessions_ids (token : String) (now : Int) (db : DB) :
    ∀ s' ∈ (validateSessionToken token now db).2.sessions,
      ∃ s ∈ db.sessions, s'.id = s.id := by
  cases hrow : (joinRows db (sessionIdOf token)).head? with
  | none =>
    rw [validate_of_head_none hrow]
    intro s' hs'
    exact ⟨s', hs', rfl⟩
  | some p =>
    obtain ⟨u, s⟩ := p
    rw [validate_of_head_some hrow]
    split_ifs with h1 h2
    · intro s' hs'
      simp only [deleteSessionById] at hs'
      exact ⟨s', (List.mem_filter.mp hs').1, rfl⟩
    · intro s' hs'
      simp only [updateSessionExpiry] at hs'
      rcases List.mem_map.mp hs' with ⟨s0, hs0, heq⟩
      refine ⟨s0, hs0, ?_⟩
      rw [← heq]
      split <;> rfl
    · intro s' hs'
      exact ⟨s', hs', rfl⟩

theorem applySessionOp_preserves_hashed (db : DB) (op : SessionOp)
    (h : storedIdsHashed db) : storedIdsHashed (applySessionOp db op) := by
  cases op with
  | create token userId now =>
    intro s hs
    simp only [applySessionOp, createSession] at hs
    rcases List.mem_append.mp hs with h1 | h1
    · exact h s h1
    · simp only [List.mem_singleton] at h1
      subst h1
      exact ⟨token, rfl⟩
  | validate token now =>
    intro s hs
    obtain ⟨s0, hs0, hid⟩ := validate_sessions_ids token now db s hs
    obtain ⟨t, ht⟩ := h s0 hs0
    exact ⟨t, by rw [hid, ht]⟩
  | invalidate sessionId =>
    intro s hs
    simp only [applySessionOp, invalidateSession, deleteSessionById] at hs
    exact h s (List.mem_filter.mp hs).1
  | invalidateAll userId =>
    intro s hs
    simp only [applySessionOp, invalidateAllSessions] at hs
    exact h s (List.mem_filter.mp hs).1

theorem runSessionOps_preserves_hashed (db : DB) (ops : List SessionOp)
    (h : storedIdsHashed db) : storedIdsHashed (runSessionOps db ops) := by
  induction ops generalizing db with
  | nil => exact h
  | cons op rest ih =>
    exact ih (applySessionOp db op) (applySessionOp_preserves_hashed db op h)

/-- C4: the raw token is never persisted.  `createSession` stores exactly the
hex-encoded SHA-256 hash of the token as the inserted row's identifier;
`validateSessionToken` consults the store only through that same hash (its
behaviour depends on the token only via `sessionIdOf`); and across every
sequence of session-manager operations, every stored session id remains the
hash of some token. -/
theorem raw_token_never_persisted :
    (∀ (token : String) (userId : Nat) (now : Int) (db : DB),
      ((createSession token userId now db).1).id = sessionIdOf token ∧
      ((createSession token userId now db).2).sessions =
        db.sessions ++ [(createSession token userId now db).1]) ∧
    (∀ (t1 t2 : String) (now : Int) (db : DB),
      sessionIdOf t1 = sessionIdOf t2 →
      validateSessionToken t1 now db = validateSessionToken t2 now db) ∧
    (∀ (db : DB) (ops : List SessionOp),
      storedIdsHashed db → storedIdsHashed (runSessionOps db ops)) := by
  refine ⟨fun token userId now db => ⟨rfl, rfl⟩, ?_, runSessionOps_preserves_hashed⟩
  intro t1 t2 now db h
  unfold validateSessionToken
  rw [h]

/-- Witness for C4: empty-session store, one create/validate/invalidate
sequence, and two spellings of the same token. -/
theorem raw_token_never_persisted_witness :
    storedIdsHashed dbA ∧
    ((createSession "t" 1 0 dbA).1).id = sessionIdOf "t" ∧
    validateSessionToken "t" 0 dbA = validateSessionToken "t" 0 dbA ∧
    storedIdsHashed (runSessionOps dbA
      [SessionOp.create "t" 1 0, SessionOp.invalidateAll 1]) :=
  ⟨by intro s hs; simp [dbA] at hs,
   (raw_token_never_persisted.1 "t" 1 0 dbA).1,
   raw_token_never_persisted.2.1 "t" "t" 0 dbA rfl,
   raw_token_never_persisted.2.2 dbA [SessionOp.create "t" 1 0, SessionOp.invalidateAll 1]
     (by intro s hs; simp [dbA] at hs)⟩

/-- C5: under primary-key well-formedness, `validateSessionToken` yields a
non-null result exactly when a session row with the token's hash is stored,
its expiry lies in the future, and a user row with the session's `userId`
exists; in particular, with the owning user absent the result is "no session"
even for a stored unexpired session (the lookup is an inner join). -/
theorem validate_some_iff_present_unexpired_user
    (token : String) (now : Int) (db : DB) (hwf : DB.wf db) :
    ((validateSessionToken token now db).1 ≠ none ↔
      ∃ s ∈ db.sessions, s.id = sessionIdOf token ∧ now < s.expiresAt ∧
        ∃ u ∈ db.users, u.id = s.userId) ∧
    (∀ s ∈ db.sessions, s.id = sessionIdOf token →
      (∀ u ∈ db.users, ¬ u.id = s.userId) →
      (validateSessionToken token now db).1 = none) := by
  have hmp : (validateSessionToken token now db).1 ≠ none →
      ∃ s ∈ db.sessions, s.id = sessionIdOf token ∧ now < s.expiresAt ∧
        ∃ u ∈ db.users, u.id = s.userId := by
    intro hne
    cases hrow : (joinRows db (sessionIdOf token)).head? with
    | none =>
      rw [validate_of_head_none hrow] at hne
      simp at hne
    | some p =>
      obtain ⟨u, s⟩ := p
      obtain ⟨hsmem, hsid, humem, huid⟩ := mem_joinRows (head?_mem hrow)
      by_cases h1 : s.expiresAt ≤ now
      · rw [validate_expired_branch hrow h1] at hne
        simp at hne
      · exact ⟨s, hsmem, hsid, not_le.mp h1, u, humem, huid⟩
  have hmpr : (∃ s ∈ db.sessions, s.id = sessionIdOf token ∧ now < s.expiresAt ∧
      ∃ u ∈ db.users, u.id = s.userId) →
      (validateSessionToken token now db).1 ≠ none := by
    rintro ⟨s, hsmem, hsid, hlt, u, humem, huid⟩
    have hsf : db.sessions.filter (fun x => x.id == sessionIdOf token) = [s] :=
      filter_key_eq_singleton Session.id hwf.1 hsmem hsid
    have huf : db.users.filter (fun x => x.id == s.userId) = [u] :=
      filter_key_eq_singleton User.id hwf.2 humem huid
    have hhead : (joinRows db (sessionIdOf token)).head? = some (u, s) := by
      simp [joinRows, hsf, huf]
    by_cases h2 : s.expiresAt - day15ms ≤ now
    · rw [validate_renew_branch hhead hlt h2]
      simp
    · rw [validate_fresh_branch hhead (not_le.mp h2)]
      simp
  refine ⟨⟨hmp, hmpr⟩, ?_⟩
  intro s hsmem hsid hnou
  by_contra hne
  obtain ⟨s', hs'mem, hs'id, _, u', hu'mem, hu'id⟩ := hmp hne
  have hsf : db.sessions.filter (fun x => x.id == sessionIdOf token) = [s] :=
    filter_key_eq_singleton Session.id hwf.1 hsmem hsid
  have hmemf : s' ∈ db.sessions.filter (fun x => x.id == sessionIdOf token) :=
    List.mem_filter.mpr ⟨hs'mem, by simp [hs'id]⟩
  rw [hsf] at hmemf
  simp only [List.mem_singleton] at hmemf
  subst hmemf
  exact hnou u' hu'mem hu'id

/-- Witness for C5 on a store with one user and no sessions. -/
theorem validate_some_iff_present_unexpired_user_witness :
    DB.wf dbA ∧
    (((validateSessionToken "t" 0 dbA).1 ≠ none ↔
      ∃ s ∈ dbA.sessions, s.id = sessionIdOf "t" ∧ 0 < s.expiresAt ∧
        ∃ u ∈ dbA.users, u.id = s.userId) ∧
     (∀ s ∈ dbA.sessions, s.id = sessionIdOf "t" →
      (∀ u ∈ dbA.users, ¬ u.id = s.userId) →
      (validateSessionToken "t" 0 dbA).1 = none)) :=
  ⟨⟨List.Pairwise.nil, List.pairwise_singleton _ _⟩,
   validate_some_iff_present_unexpired_user "t" 0 dbA
     ⟨List.Pairwise.nil, List.pairwise_singleton _ _⟩⟩

/-- C7: `invalidateAllSessions userId` removes every stored session owned by
`userId` and keeps every session of any other user; both `invalidateSession`
and `invalidateAllSessions` leave the store unchanged (an idempotent no-op,
with no error) when nothing matches. -/
theorem invalidation_removes_only_matching
    (userId : Nat) (sessionId : String) (db : DB) :
    (∀ s ∈ (invalidateAllSessions userId db).sessions, ¬ s.userId = userId) ∧
    (∀ s ∈ db.sessions, ¬ s.userId = userId →
      s ∈ (invalidateAllSessions userId db).sessions) ∧
    ((∀ s ∈ db.sessions, ¬ s.userId = userId) →
      invalidateAllSessions userId db = db) ∧
    ((∀ s ∈ db.sessions, ¬ s.id = sessionId) →
      invalidateSession sessionId db = db) := by
  refine ⟨?_, ?_, ?_, ?_⟩
  · intro s hs
    simp only [invalidateAllSessions] at hs
    have := (List.mem_filter.mp hs).2
    simpa using this
  · intro s hs hne
    simp only [invalidateAllSessions]
    exact List.mem_filter.mpr ⟨hs, by simpa using hne⟩
  · intro h
    simp only [invalidateAllSessions]
    have heq : db.sessions.filter (fun s => !(s.userId == userId)) = db.sessions := by
      rw [List.filter_eq_self]
      intro a ha
      simpa using h a ha
    rw [heq]
  · intro h
    simp only [invalidateSession, deleteSessionById]
    have heq : db.sessions.filter (fun s => !(s.id == sessionId)) = db.sessions := by
      rw [List.filter_eq_self]
      intro a ha
      simpa using h a ha
    rw [heq]

/-- Sessions of two distinct users, for the C7 witness. -/
def dbB : DB :=
  { sessions := [{ id := "a", userId := 1, expiresAt := 5 },
                 { id := "b", userId := 2, expiresAt := 5 }],
    users := [] }

/-- Witness for C7: invalidating user 3 (no sessions) and session id `"c"`
(absent) leaves the two stored sessions untouched. -/
theorem invalidation_removes_only_matching_witness :
    (∀ s ∈ (invalidateAllSessions 3 dbB).sessions, ¬ s.userId = 3) ∧
    invalidateAllSessions 3 dbB = dbB ∧
    invalidateSession "c" dbB = dbB :=
  ⟨(invalidation_removes_only_matching 3 "c" dbB).1,
   (invalidation_removes_only_matching 3 "c" dbB).2.2.1 (by decide),
   (invalidation_removes_only_matching 3 "c" dbB).2.2.2 (by decide)⟩

theorem validate_validate_eq (token : String) (now : Int) (db : DB) :
    validateSessionToken token now (validateSessionToken token now db).2 =
      validateSessionToken token now db := by
  cases hrow : (joinRows db (sessionIdOf token)).head? with
  | none =>
    have h : validateSessionToken token now db = (none, db) := validate_of_head_none hrow
    rw [h]
    exact h
  | some p =>
    obtain ⟨u, s⟩ := p
    have hsid : s.id = sessionIdOf token := (mem_joinRows (head?_mem hrow)).2.1
    by_cases h1 : s.expiresAt ≤ now
    · have h := validate_expired_branch hrow h1
      rw [h]
      have hrow2 : (joinRows (deleteSessionById db s.id) (sessionIdOf token)).head? = none := by
        rw [hsid, joinRows_deleteSessionById]
        rfl
      exact validate_of_head_none hrow2
    · by_cases h2 : s.expiresAt - day15ms ≤ now
      · have h := validate_renew_branch hrow (not_le.mp h1) h2
        rw [h]
        have hrow2 : (joinRows (updateSessionExpiry db s.id (now + day30ms))
            (sessionIdOf token)).head? =
            some (u, { s with expiresAt := now + day30ms }) := by
          conv_lhs => rw [hsid]
          rw [joinRows_updateSessionExpiry, List.head?_map, hrow]
          rfl
        have ha : ¬ (({ s with expiresAt := now + day30ms } : Session).expiresAt ≤ now) := by
          show ¬ (now + day30ms ≤ now)
          rw [day30ms_eq]
          omega
        have hb : ¬ (({ s with expiresAt := now + day30ms } : Session).expiresAt - day15ms ≤ now) := by
          show ¬ (now + day30ms - day15ms ≤ now)
          rw [day30ms_eq, day15ms_eq]
          omega
        exact (validate_of_head_some hrow2).trans (by rw [if_neg ha, if_neg hb])
      · have h := validate_fresh_branch hrow (not_le.mp h2)
        rw [h]
        exact h

/-- C9: the renewal inside `validateSessionToken` writes `now + 30 days`
regardless of the session's previous expiry, so renewal is idempotent in the
validation time: re-validating with the same token at the same instant
returns the same result and leaves the store unchanged (applying the call
twice at one instant equals applying it once). -/
theorem renewal_idempotent :
    (∀ (token : String) (now : Int) (db : DB) (u : User) (s : Session),
      (joinRows db (sessionIdOf token)).head? = some (u, s) →
      now < s.expiresAt → s.expiresAt - day15ms ≤ now →
      (validateSessionToken token now db).1 =
        some (u, { s with expiresAt := now + day30ms }) ∧
      (validateSessionToken token now db).2 =
        updateSessionExpiry db s.id (now + day30ms)) ∧
    (∀ (token : String) (now : Int) (db : DB),
      validateSessionToken token now (validateSessionToken token now db).2 =
        validateSessionToken token now db) := by
  refine ⟨?_, validate_validate_eq⟩
  intro token now db u s hrow h1 h2
  rw [validate_renew_branch hrow h1 h2]
  exact ⟨rfl, rfl⟩

/-- Witness for C9: a freshly created session renewed at day 20; the repeated
call at the same instant changes nothing. -/
theorem renewal_idempotent_witness :
    validateSessionToken "t" (20 * day1ms)
        (validateSessionToken "t" (20 * day1ms) (createSession "t" 1 0 dbA).2).2 =
      validateSessionToken "t" (20 * day1ms) (createSession "t" 1 0 dbA).2 ∧
    (validateSessionToken "t" (20 * day1ms) (createSession "t" 1 0 dbA).2).1 =
      some (userA,
        { (createSession "t" 1 0 dbA).1 with expiresAt := 20 * day1ms + day30ms }) :=
  ⟨renewal_idempotent.2 "t" (20 * day1ms) (createSession "t" 1 0 dbA).2,
   (renewal_idempotent.1 "t" (20 * day1ms) (createSession "t" 1 0 dbA).2 userA
     (createSession "t" 1 0 dbA).1
     (head_joinRows_after_create "t" 1 0 dbA userA rfl (by intro s hs; simp [dbA] at hs))
     (by show (20 * day1ms : Int) < 0 + day30ms
         rw [day1ms_eq, day30ms_eq]; omega)
     (by show (0 : Int) + day30ms - day15ms ≤ 20 * day1ms
         rw [day1ms_eq, day30ms_eq, day15ms_eq]; omega)).1⟩

/-- C10: whenever `validateSessionToken` returns a session, its expiry lies
strictly more than 15 days past the validation time: fresh sessions satisfy
`expiresAt > now + 15 days` already, and sessions in the renewal window come
back with `expiresAt = now + 30 days`, so a caller never receives a session
with 15 days or less of remaining lifetime. -/
theorem validated_session_lifetime
    (token : String) (now : Int) (db : DB) (u : User) (s : Session)
    (h : (validateSessionToken token now db).1 = some (u, s)) :
    now + day15ms < s.expiresAt :=
  validate_some_lifetime h

/-- Witness for C10: the day-20 renewal of a session created at 0 comes back
with more than 15 days of lifetime. -/
theorem validated_session_lifetime_witness :
    (validateSessionToken "t" (20 * day1ms) (createSession "t" 1 0 dbA).2).1 =
      some (userA,
        { (createSession "t" 1 0 dbA).1 with expiresAt := 20 * day1ms + day30ms }) ∧
    20 * day1ms + day15ms <
      ({ (createSession "t" 1 0 dbA).1 with
          expiresAt := 20 * day1ms + day30ms } : Session).expiresAt := by
  have hres : (validateSessionToken "t" (20 * day1ms) (createSession "t" 1 0 dbA).2).1 =
      some (userA,
        { (createSession "t" 1 0 dbA).1 with expiresAt := 20 * day1ms + day30ms }) := by
    rw [validate_renew_branch
      (head_joinRows_after_create "t" 1 0 dbA userA rfl (by intro s hs; simp [dbA] at hs))
      (by show (20 * day1ms : Int) < 0 + day30ms
          rw [day1ms_eq, day30ms_eq]; omega)
      (by show (0 : Int) + day30ms - day15ms ≤ 20 * day1ms
          rw [day1ms_eq, day30ms_eq, day15ms_eq]; omega)]
  exact ⟨hres,
    validated_session_lifetime "t" (20 * day1ms) (createSession "t" 1 0 dbA).2 userA
      { (createSession "t" 1 0 dbA).1 with expiresAt := 20 * day1ms + day30ms } hres⟩

theorem getCurrentSessionCached_some (token : String) (now : Int) (db : DB) :
    getCurrentSessionCached (some token) now db =
      match (validateSessionToken token now db).1 with
      | none => ((none, (validateSessionToken token now db).2),
                 { tag := none, life := none })
      | some (u, s) =>
        ((some (u, s), (validateSessionToken token now db).2),
         { tag := some (String.append "session:" s.id),
           life := some { stale := 0,
                          revalidate := max 0 ((s.expiresAt - now).fdiv 1000),
                          expire := max 0 ((s.expiresAt - now).fdiv 1000) } }) := by
  simp only [getCurrentSessionCached]

/-- C6 counterexample: the cached computation for a token with no matching
session caches the "no session" result with NO cache tag and NO explicit
lifetime (the framework default applies), refuting the claim that each cached
entry is tagged with the session identifier and given a lifetime equal to the
session's remaining time-to-live. -/
theorem cached_no_session_entry_untagged :
    (getCurrentSessionCached (some "t") 0 { sessions := [], users := [] }).2.tag = none ∧
    (getCurrentSessionCached (some "t") 0 { sessions := [], users := [] }).2.life = none :=
  ⟨rfl, rfl⟩

/-- C6 (amended): the cached lookup caches the "no session" result as well as
positive results, but only positive entries carry directives: a null-token or
failed lookup yields no tag and no explicit lifetime, while a positive result
is tagged `session:<id>` and given lifetime `stale 0`,
`revalidate = expire = ⌊remaining/1000⌋` seconds, so the positive cache entry
expires no later than the session itself; `getCurrentSession` reads the
`session` cookie and delegates. -/
theorem cache_directives_for_current_session :
    (∀ (now : Int) (db : DB),
      getCurrentSessionCached none now db =
        ((none, db), { tag := none, life := none })) ∧
    (∀ (token : String) (now : Int) (db : DB),
      (validateSessionToken token now db).1 = none →
      getCurrentSessionCached (some token) now db =
        ((none, (validateSessionToken token now db).2),
         { tag := none, life := none })) ∧
    (∀ (token : String) (now : Int) (db : DB) (u : User) (s : Session),
      (validateSessionToken token now db).1 = some (u, s) →
      (getCurrentSessionCached (some token) now db).2.tag =
        some (String.append "session:" s.id) ∧
      (getCurrentSessionCached (some token) now db).2.life =
        some { stale := 0,
               revalidate := (s.expiresAt - now).fdiv 1000,
               expire := (s.expiresAt - now).fdiv 1000 } ∧
      now + 1000 * ((s.expiresAt - now).fdiv 1000) ≤ s.expiresAt) ∧
    (∀ (cookieStore : List (String × String)) (now : Int) (db : DB),
      getCurrentSession cookieStore now db =
        getCurrentSessionCached (cookieStore.lookup "session") now db) := by
  refine ⟨fun now db => rfl, ?_, ?_, fun cookieStore now db => rfl⟩
  · intro token now db h
    rw [getCurrentSessionCached_some, h]
  · intro token now db u s h
    have hlt : now + day15ms < s.expiresAt := validate_some_lifetime h
    have hpos : (0 : Int) < s.expiresAt - now := by
      rw [day15ms_eq] at hlt
      omega
    have hdiv : (s.expiresAt - now).fdiv 1000 = (s.expiresAt - now) / 1000 :=
      Int.fdiv_eq_ediv _ (by omega)
    have hnn : (0 : Int) ≤ (s.expiresAt - now).fdiv 1000 := by
      rw [hdiv]
      exact Int.ediv_nonneg (le_of_lt hpos) (by omega)
    have hmax : max (0 : Int) ((s.expiresAt - now).fdiv 1000) =
        (s.expiresAt - now).fdiv 1000 := max_eq_right hnn
    have hle : now + 1000 * ((s.expiresAt - now).fdiv 1000) ≤ s.expiresAt := by
      rw [hdiv]
      have h1 := Int.ediv_add_emod (s.expiresAt - now) 1000
      have h2 := Int.emod_nonneg (s.expiresAt - now) (by omega : (1000 : Int) ≠ 0)
      omega
    rw [getCurrentSessionCached_some, h]
    refine ⟨rfl, ?_, hle⟩
    show some ({ stale := 0,
                 revalidate := max 0 ((s.expiresAt - now).fdiv 1000),
                 expire := max 0 ((s.expiresAt - now).fdiv 1000) } : CacheLife) =
      some ({ stale := 0,
              revalidate := (s.expiresAt - now).fdiv 1000,
              expire := (s.expiresAt - now).fdiv 1000 } : CacheLife)
    rw [hmax]

/-- Witness for C6 (amended): empty cookie store and a failing token on the
sample store. -/
theorem cache_directives_for_current_session_witness :
    getCurrentSessionCached none 0 dbA = ((none, dbA), { tag := none, life := none }) ∧
    (validateSessionToken "t" 0 dbA).1 = none ∧
    getCurrentSessionCached (some "t") 0 dbA =
      ((none, (validateSessionToken "t" 0 dbA).2), { tag := none, life := none }) ∧
    getCurrentSession [] 0 dbA = getCurrentSessionCached (List.lookup "session" []) 0 dbA :=
  ⟨cache_directives_for_current_session.1 0 dbA,
   rfl,
   cache_directives_for_current_session.2.1 "t" 0 dbA rfl,
   cache_directives_for_current_session.2.2.2 [] 0 dbA⟩

/-- C8: the login-initiation `GET` handler returns a 302 response whose
`Location` is the provider authorization URL built from the fresh state and
PKCE code verifier with exactly the scopes `openid` and `profile` plus
`prompt=select_account`, and sets the `google_oauth_state` and
`google_code_verifier` cookies HTTP-only, same-site lax, path `/`, max age
600 seconds, secure exactly when `NODE_ENV` is `production`. -/
theorem oauth_login_initiation (state codeVerifier nodeEnv : String) :
    (oauthLoginGET state codeVerifier nodeEnv).status = 302 ∧
    (oauthLoginGET state codeVerifier nodeEnv).location =
      { state := state, codeVerifier := codeVerifier,
        scopes := ["openid", "profile"],
        params := [("prompt", "select_account")] } ∧
    (oauthLoginGET state codeVerifier nodeEnv).setCookies =
      [ { name := "google_oauth_state", value := state, path := "/",
          httpOnly := true, secure := nodeEnv == "production",
          maxAge := 600, sameSite := "lax" },
        { name := "google_code_verifier", value := codeVerifier, path := "/",
          httpOnly := true, secure := nodeEnv == "production",
          maxAge := 600, sameSite := "lax" } ] ∧
    (∀ c ∈ (oauthLoginGET state codeVerifier nodeEnv).setCookies,
      c.httpOnly = true ∧ c.sameSite = "lax" ∧ c.path = "/" ∧ c.maxAge = 600 ∧
      (c.secure = true ↔ nodeEnv = "production")) := by
  refine ⟨rfl, rfl, by norm_num [oauthLoginGET], ?_⟩
  intro c hc
  simp only [oauthLoginGET, List.mem_cons, List.mem_singleton] at hc
  rcases hc with rfl | rfl | hc
  · exact ⟨rfl, rfl, rfl, by norm_num, by simp⟩
  · exact ⟨rfl, rfl, rfl, by norm_num, by simp⟩
  · simp at hc

/-- Witness for C8 in the production environment. -/
theorem oauth_login_initiation_witness :
    (oauthLoginGET "s" "v" "production").status = 302 ∧
    (∀ c ∈ (oauthLoginGET "s" "v" "production").setCookies,
      c.httpOnly = true ∧ c.sameSite = "lax" ∧ c.path = "/" ∧ c.maxAge = 600 ∧
      (c.secure = true ↔ "production" = "production")) :=
  ⟨(oauth_login_initiation "s" "v" "production").1,
   (oauth_login_initiation "s" "v" "production").2.2.2⟩
